import Mathlib

/-!
Verification of the taskmanagers HR/training backend against its
natural-language specification.  Each module of the source that the
claims touch is shallowly embedded as executable Lean definitions:
JavaScript numbers become an explicit `JSNum` type (finite rationals
plus the IEEE special values `Infinity`, `-Infinity`, `NaN` that the
source can produce), open request rows become structures of optional
fields, MongoDB collections become lists of records, and each HTTP
handler becomes a pure function from (request, store) to
(response, store).
-/

namespace TaskMgr

/-! ## JavaScript number model

The result controller computes `Math.round((score / total_marks) * 100)`
on raw request values, so the embedding needs JS arithmetic including
division by zero (which yields `Infinity`, `-Infinity` or `NaN`, not an
exception) and `NaN`-poisoned comparisons. -/

inductive JSNum where
  | fin (q : ℚ)
  | posInf
  | negInf
  | nan
deriving DecidableEq, Repr

/-- JS division. `a / 0` is `Infinity`, `-Infinity` or `NaN` according to
the sign of `a`; anything involving `NaN`, and `inf / inf`, is `NaN`. -/
def jsDiv : JSNum → JSNum → JSNum
  | .fin a, .fin b =>
      if b = 0 then (if 0 < a then .posInf else if a < 0 then .negInf else .nan)
      else .fin (a / b)
  | .fin _, .posInf => .fin 0
  | .fin _, .negInf => .fin 0
  | .posInf, .fin b => if 0 ≤ b then .posInf else .negInf
  | .negInf, .fin b => if 0 ≤ b then .negInf else .posInf
  | _, _ => .nan

/-- JS multiplication on the same value space. -/
def jsMul : JSNum → JSNum → JSNum
  | .fin a, .fin b => .fin (a * b)
  | .fin a, .posInf => if 0 < a then .posInf else if a < 0 then .negInf else .nan
  | .posInf, .fin b => if 0 < b then .posInf else if b < 0 then .negInf else .nan
  | .fin a, .negInf => if 0 < a then .negInf else if a < 0 then .posInf else .nan
  | .negInf, .fin b => if 0 < b then .negInf else if b < 0 then .posInf else .nan
  | .posInf, .posInf => .posInf
  | .negInf, .negInf => .posInf
  | .posInf, .negInf => .negInf
  | .negInf, .posInf => .negInf
  | _, _ => .nan

/-- JS `Math.round`: half-up rounding on finite values, identity on the
special values. -/
def jsRound : JSNum → JSNum
  | .fin q => .fin ((⌊q + 1/2⌋ : ℤ) : ℚ)
  | x => x

/-- JS `x >= y`: every comparison with `NaN` is false; `Infinity` is
greater than or equal to everything else. -/
def jsGe : JSNum → JSNum → Bool
  | .nan, _ => false
  | _, .nan => false
  | .fin a, .fin b => decide (b ≤ a)
  | .posInf, _ => true
  | .negInf, .negInf => true
  | .negInf, _ => false
  | _, .posInf => false
  | _, .negInf => true

/-- A JS number is finite when it is neither an infinity nor `NaN`. -/
def JSNum.isFinite : JSNum → Bool
  | .fin _ => true
  | _ => false

/-! ## Result controller (src/controllers/resultController.js)

`createResult` (lines 190-197), `bulkUploadResults` (lines 315-330) and
`updateResult` (lines 594-628) all derive a percentage and a pass/fail
status from a score and a total-marks value. -/

inductive RStatus where
  | passed
  | failed
deriving DecidableEq, Repr

/-- Percentage formula `Math.round((score / total_marks) * 100)` — resultController.js
lines 191, 324 and 611. -/
def resultPercentage (score total_marks : JSNum) : JSNum :=
  jsRound (jsMul (jsDiv score total_marks) (.fin 100))

/-- Status derivation `if (percentage >= 60) status = passed else failed` —
resultController.js lines 194-197, 327-330 and 614-618. -/
def statusFor (percentage : JSNum) : RStatus :=
  if jsGe percentage (.fin 60) then .passed else .failed

/-- The pair a result record stores for its percentage and status. -/
structure ScoredOutcome where
  percentage : JSNum
  status : RStatus
deriving DecidableEq, Repr

/-- Handler `createResult` (resultController.js lines 174-238), restricted to the
fields derived from `score` and `total_marks`: the percentage is computed
directly on the raw request values, with no guard on `total_marks = 0`. -/
def createResult (score total_marks : JSNum) : ScoredOutcome :=
  let percentage := resultPercentage score total_marks
  { percentage := percentage, status := statusFor percentage }

/-- Score coercion of `bulkUploadResults` (resultController.js lines
317-322): `parseFloat`, with `NaN` replaced by 0.  A missing score is
outside this model (the source then reads an undeclared global). -/
def bulkComputedScore (raw : JSNum) : JSNum :=
  if raw = .nan then .fin 0 else raw

/-- Total-marks coercion of `bulkUploadResults` (resultController.js line
323): `parseFloat(resultData.total_marks) || 100` — a missing value
parses to `NaN`, and both `NaN` and `0` are falsy, so they fall back
to 100. -/
def bulkComputedTotalMarks : Option JSNum → JSNum
  | none => .fin 100
  | some v => if v = .nan ∨ v = .fin 0 then .fin 100 else v

/-- Percentage and status derivation of `bulkUploadResults` (resultController.js
lines 315-330). -/
def bulkResultOutcome (rawScore : JSNum) (rawTotal : Option JSNum) : ScoredOutcome :=
  let percentage := resultPercentage (bulkComputedScore rawScore) (bulkComputedTotalMarks rawTotal)
  { percentage := percentage, status := statusFor percentage }

/-- A stored result record, restricted to the fields `updateResult`
touches. -/
structure ResultRec where
  score : JSNum
  total_marks : JSNum
  percentage : JSNum
  status : RStatus
  remarks : String
deriving DecidableEq, Repr

/-- Handler `updateResult` (resultController.js lines 594-628): apply whichever
of `score`, `total_marks`, `remarks`, `status` the request supplies;
then, if `score` or `total_marks` was supplied, recompute the percentage
from the updated record and overwrite the status from the recomputed
percentage. -/
def updateResult (r : ResultRec) (score total_marks : Option JSNum)
    (remarks : Option String) (status : Option RStatus) : ResultRec :=
  let r1 : ResultRec :=
    { r with
      score := score.getD r.score
      total_marks := total_marks.getD r.total_marks
      remarks := remarks.getD r.remarks
      status := status.getD r.status }
  if score.isSome || total_marks.isSome then
    let p := resultPercentage r1.score r1.total_marks
    { r1 with percentage := p, status := statusFor p }
  else
    r1

/-- C2: the claim requires a safe (finite) fallback for
`total_marks = 0` on every path that creates or corrects a result.  The
bulk-upload path indeed falls back (`total_marks` 0 becomes 100), but
`createResult` divides by zero: score 50 with total 0 stores
`Infinity` and status passed, and score 0 with total 0 stores `NaN` and
status failed — no finite fallback is produced, contradicting the
claim at these inputs. -/
theorem createResult_divides_by_zero :
    (createResult (.fin 50) (.fin 0)).percentage = JSNum.posInf ∧
    (createResult (.fin 50) (.fin 0)).status = RStatus.passed ∧
    (createResult (.fin 50) (.fin 0)).percentage.isFinite = false ∧
    (createResult (.fin 0) (.fin 0)).percentage = JSNum.nan ∧
    (createResult (.fin 0) (.fin 0)).status = RStatus.failed ∧
    bulkComputedTotalMarks (some (.fin 0)) = JSNum.fin 100 ∧
    (bulkResultOutcome (.fin 50) (some (.fin 0))).percentage = JSNum.fin 50 := by
  refine ⟨rfl, rfl, rfl, rfl, rfl, rfl, ?_⟩
  show jsRound (jsMul (jsDiv (JSNum.fin 50) (JSNum.fin 100)) (.fin 100)) = JSNum.fin 50
  norm_num [jsDiv, jsMul, jsRound]

/-- The status a percentage induces is passed exactly when the JS
comparison `percentage >= 60` holds. -/
theorem statusFor_passed_iff (p : JSNum) :
    statusFor p = RStatus.passed ↔ jsGe p (.fin 60) = true := by
  unfold statusFor
  by_cases hge : jsGe p (.fin 60) = true
  · simp [hge]
  · simp only [Bool.not_eq_true] at hge
    simp [hge]

/-- C10: after an `updateResult` call that supplies a new score and/or
total marks, the stored percentage is recomputed from the updated score
and total marks, and the stored status is passed exactly when the
recomputed percentage is at least 60 (JS comparison), regardless of any
status supplied in the same request. -/
theorem updateResult_consistent (r : ResultRec) (score total_marks : Option JSNum)
    (remarks : Option String) (status : Option RStatus)
    (h : (score.isSome || total_marks.isSome) = true) :
    (updateResult r score total_marks remarks status).percentage =
      resultPercentage (updateResult r score total_marks remarks status).score
        (updateResult r score total_marks remarks status).total_marks ∧
    (updateResult r score total_marks remarks status).status =
      statusFor (updateResult r score total_marks remarks status).percentage ∧
    ((updateResult r score total_marks remarks status).status = RStatus.passed ↔
      jsGe (updateResult r score total_marks remarks status).percentage (.fin 60) = true) := by
  unfold updateResult
  split
  · exact ⟨rfl, rfl, statusFor_passed_iff _⟩
  · simp_all

/-- Witness for C10 at a concrete input: updating score 80 (total 100)
while the request also supplies status failed still stores percentage 80
and status passed. -/
theorem updateResult_consistent_witness :
    (Option.isSome (some (JSNum.fin 80)) || Option.isSome (none : Option JSNum)) = true ∧
    (updateResult ⟨.fin 10, .fin 100, .fin 10, .failed, ""⟩ (some (.fin 80)) none none
        (some .failed)).percentage =
      resultPercentage (updateResult ⟨.fin 10, .fin 100, .fin 10, .failed, ""⟩ (some (.fin 80))
        none none (some .failed)).score
        (updateResult ⟨.fin 10, .fin 100, .fin 10, .failed, ""⟩ (some (.fin 80)) none none
          (some .failed)).total_marks := by
  exact ⟨rfl, (updateResult_consistent ⟨.fin 10, .fin 100, .fin 10, .failed, ""⟩
    (some (.fin 80)) none none (some .failed) rfl).1⟩

/-! ## Candidate dashboard detail (candidateDashboardController, src/unnamed/part_002)

`getCandidateDashboardDetail` derives a grooming rating per daily
observation and a table of learning metrics keyed by subject. -/

/-- The three grooming sub-ratings of a daily observation; each field is
optional and defaulted to the empty string by the source (`|| ''`). -/
structure Grooming where
  dressCode : Option String
  neatness : Option String
  punctuality : Option String
deriving DecidableEq, Repr

/-- Function `getGroomingRating` (part_002 lines 656-682): null grooming gives
null; any sub-rating equal to needs_improvement gives Average; all three
in {excellent, good} gives Good; any sub-rating equal to average gives
Average; otherwise Good. -/
def getGroomingRating : Option Grooming → Option String
  | none => none
  | some g =>
    let dressCode := g.dressCode.getD ""
    let neatness := g.neatness.getD ""
    let punctuality := g.punctuality.getD ""
    if dressCode = "needs_improvement" ∨ neatness = "needs_improvement" ∨
        punctuality = "needs_improvement" then
      some "Average"
    else if (dressCode = "excellent" ∨ dressCode = "good") ∧
        (neatness = "excellent" ∨ neatness = "good") ∧
        (punctuality = "excellent" ∨ punctuality = "good") then
      some "Good"
    else if dressCode = "average" ∨ neatness = "average" ∨ punctuality = "average" then
      some "Average"
    else
      some "Good"

/-- Modelled from the spec sentence behind C5, for comparison with the
source: any needs_improvement collapses to Average, all excellent/good
collapses to Good, otherwise the rating defaults to Good.  (This is the
rule table the claim states; it has no rule for the value average.) -/
def claimGroomingRating (g : Grooming) : String :=
  let dressCode := g.dressCode.getD ""
  let neatness := g.neatness.getD ""
  let punctuality := g.punctuality.getD ""
  if dressCode = "needs_improvement" ∨ neatness = "needs_improvement" ∨
      punctuality = "needs_improvement" then
    "Average"
  else if (dressCode = "excellent" ∨ dressCode = "good") ∧
      (neatness = "excellent" ∨ neatness = "good") ∧
      (punctuality = "excellent" ∨ punctuality = "good") then
    "Good"
  else
    "Good"

/-- C5 counterexample: on the sub-ratings {dressCode: average,
neatness: good, punctuality: good} the source computes Average while the
three-rule table of the claim computes Good, so the claim's "otherwise
the rating defaults to Good" precedence is not the code's. -/
theorem groomingRating_claim_false :
    getGroomingRating (some ⟨some "average", some "good", some "good"⟩) = some "Average" ∧
    claimGroomingRating ⟨some "average", some "good", some "good"⟩ = "Good" ∧
    "Average" ≠ "Good" := by
  refine ⟨by decide, by decide, by decide⟩

/-- Predicate: some grooming sub-rating equals `v`. -/
def Grooming.hasRating (g : Grooming) (v : String) : Prop :=
  g.dressCode.getD "" = v ∨ g.neatness.getD "" = v ∨ g.punctuality.getD "" = v

instance (g : Grooming) (v : String) : Decidable (g.hasRating v) := by
  unfold Grooming.hasRating
  infer_instance

/-- Predicate: every grooming sub-rating is excellent or good. -/
def Grooming.allGoodOrExcellent (g : Grooming) : Prop :=
  (g.dressCode.getD "" = "excellent" ∨ g.dressCode.getD "" = "good") ∧
  (g.neatness.getD "" = "excellent" ∨ g.neatness.getD "" = "good") ∧
  (g.punctuality.getD "" = "excellent" ∨ g.punctuality.getD "" = "good")

instance (g : Grooming) : Decidable g.allGoodOrExcellent := by
  unfold Grooming.allGoodOrExcellent
  infer_instance

/-- C5 amended: the rollup has a fourth rule before the default — any
sub-rating equal to average (when no sub-rating is needs_improvement and
not all are excellent/good) also collapses the day to Average.  The
rating of a present observation is always Good or Average, it is Average
exactly when some sub-rating is needs_improvement, or some sub-rating is
average and not all are excellent/good; the claim's scenario
{good, needs_improvement, good} still rates Average. -/
theorem groomingRating_characterization (g : Grooming) :
    (getGroomingRating (some g) = some "Average" ∨
      getGroomingRating (some g) = some "Good") ∧
    (getGroomingRating (some g) = some "Average" ↔
      (g.hasRating "needs_improvement" ∨
        (g.hasRating "average" ∧ ¬ g.allGoodOrExcellent))) ∧
    getGroomingRating
      (some ⟨some "good", some "needs_improvement", some "good"⟩) = some "Average" := by
  refine ⟨?_, ?_, by decide⟩
  · simp only [getGroomingRating]
    split_ifs <;> simp
  · simp only [getGroomingRating]
    unfold Grooming.hasRating Grooming.allGoodOrExcellent
    split_ifs with h1 h2 h3
    · simp only [true_iff]
      left
      exact h1
    · simp only [Option.some.injEq]
      constructor
      · intro hcontra
        exact absurd hcontra (by decide)
      · intro hcase
        rcases hcase with hni | ⟨_, hnall⟩
        · exact absurd hni h1
        · exact absurd h2 hnall
    · simp only [true_iff]
      right
      exact ⟨h3, h2⟩
    · simp only [Option.some.injEq]
      constructor
      · intro hcontra
        exact absurd hcontra (by decide)
      · intro hcase
        rcases hcase with hni | ⟨havg, _⟩
        · exact absurd hni h1
        · exact absurd havg h3

/-! ## Fortnight exam metrics (part_002 lines 549-620)

The learning report builds one row per metric label with a value per
subject.  The two fortnight count metrics are initialised to the
constant 1 and the aggregation loop never reassigns them. -/

/-- A stored result row as the dashboard aggregation reads it. -/
structure DashResult where
  exam_type : Option String
  percentage : Option Int
deriving DecidableEq, Repr

/-- Extract the fortnight ordinal from a lower-cased exam type, as the
regex match `/fortnight\s*(\d+)/i` does on a string that starts with
fortnight. -/
def extractFortnightNum (lower : String) : Option Nat :=
  if lower.startsWith "fortnight" then
    let rest := (lower.drop 9).dropWhile Char.isWhitespace
    let ds := rest.takeWhile Char.isDigit
    ds.toNat?
  else
    none

/-- The fortnight aggregation state of part_002 lines 552-570:
`totalFortnightExams` and `totalFortnightAttempts` start at 1 and are
never written again; the loop only accumulates the score, the set of
ordinals seen and the actual attempt count. -/
structure FortnightAgg where
  totalFortnightExams : Nat
  totalFortnightAttempts : Nat
  totalFortnightScore : Int
  uniqueFortnightNumbers : List Nat
  actualAttempts : Nat
deriving DecidableEq, Repr

/-- One iteration of the `allResults.forEach` loop at lines 559-570. -/
def fortnightStep (acc : FortnightAgg) (r : DashResult) : FortnightAgg :=
  let examType := (r.exam_type.getD "").toLower
  if examType.startsWith "fortnight" then
    match extractFortnightNum examType with
    | some n =>
        { acc with
          uniqueFortnightNumbers :=
            if n ∈ acc.uniqueFortnightNumbers then acc.uniqueFortnightNumbers
            else acc.uniqueFortnightNumbers ++ [n]
          actualAttempts := acc.actualAttempts + 1
          totalFortnightScore := acc.totalFortnightScore + (r.percentage.getD 0) }
    | none => acc
  else
    acc

/-- The whole fortnight aggregation over the queried results. -/
def fortnightAggregate (results : List DashResult) : FortnightAgg :=
  results.foldl fortnightStep
    { totalFortnightExams := 1
      totalFortnightAttempts := 1
      totalFortnightScore := 0
      uniqueFortnightNumbers := []
      actualAttempts := 0 }

/-- A learning report cell is a number or the empty string. -/
inductive MetricVal where
  | num (n : Int)
  | empty
deriving DecidableEq, Repr

/-- The per-subject cell of the "Fort night exam counts" metric
(part_002 line 590): the aggregate field is always defined, so the
undefined/null guard of the source always takes the numeric branch. -/
def fortnightCountCell (results : List DashResult) : MetricVal :=
  .num (fortnightAggregate results).totalFortnightExams

/-- The per-subject cell of the "Fort night exam attempts counts" metric
(part_002 line 593). -/
def fortnightAttemptsCell (results : List DashResult) : MetricVal :=
  .num (fortnightAggregate results).totalFortnightAttempts

/-- The aggregation loop never writes the two count fields. -/
theorem fortnightAggregate_counts_const (results : List DashResult) (init : FortnightAgg) :
    (results.foldl fortnightStep init).totalFortnightExams = init.totalFortnightExams ∧
    (results.foldl fortnightStep init).totalFortnightAttempts = init.totalFortnightAttempts := by
  induction results generalizing init with
  | nil => exact ⟨rfl, rfl⟩
  | cons r rs ih =>
      have hstep : (fortnightStep init r).totalFortnightExams = init.totalFortnightExams ∧
          (fortnightStep init r).totalFortnightAttempts = init.totalFortnightAttempts := by
        by_cases h : ((r.exam_type.getD "").toLower).startsWith "fortnight" = true
        · cases hm : extractFortnightNum ((r.exam_type.getD "").toLower) <;>
            simp [fortnightStep, h, hm]
        · simp only [Bool.not_eq_true] at h
          simp [fortnightStep, h]
      obtain ⟨h1, h2⟩ := ih (fortnightStep init r)
      simp only [List.foldl_cons]
      rw [h1, h2, hstep.1, hstep.2]
      exact ⟨rfl, rfl⟩

/-- C9: in the detailed candidate dashboard report, both the fortnight
exam count cell and the fortnight exam attempts cell equal 1 for every
subject and every list of queried results — including an empty one, and
regardless of how many fortnight attempts the results actually
contain. -/
theorem fortnight_cells_always_one (results : List DashResult) :
    fortnightCountCell results = MetricVal.num 1 ∧
    fortnightAttemptsCell results = MetricVal.num 1 := by
  unfold fortnightCountCell fortnightAttemptsCell fortnightAggregate
  obtain ⟨h1, h2⟩ := fortnightAggregate_counts_const results
    { totalFortnightExams := 1
      totalFortnightAttempts := 1
      totalFortnightScore := 0
      uniqueFortnightNumbers := []
      actualAttempts := 0 }
  rw [h1, h2]
  exact ⟨rfl, rfl⟩

/-! ## Bulk joiner upload (src/controllers/bulkJoinerController.js)

`bulkUploadJoiners` (lines 194-462) validates an array of open rows,
collects per-row errors keyed by 1-based row number, checks duplicates
against the Joiner collection, and inserts the mapped records.  String
helpers are implemented over character lists so that every concrete
evaluation reduces inside the kernel. -/

/-- Trim, as JS `String.prototype.trim` on ASCII whitespace. -/
def jsTrim (s : String) : String :=
  String.mk (((s.data.dropWhile Char.isWhitespace).reverse.dropWhile
    Char.isWhitespace).reverse)

/-- Lower-casing, as JS `toLowerCase` on ASCII. -/
def lowerStr (s : String) : String :=
  String.mk (s.data.map Char.toLower)

/-- Split a character list at every occurrence of a separator. -/
def splitChar (sep : Char) : List Char → List (List Char)
  | [] => [[]]
  | c :: rest =>
      let ps := splitChar sep rest
      if c = sep then [] :: ps
      else
        match ps with
        | [] => [[c]]
        | p :: tl => (c :: p) :: tl

/-- A phone-typed cell of the open request row: absent/null, a string,
or a number (spreadsheet sources deliver numbers). -/
inductive PhoneVal where
  | null
  | str (s : String)
  | num (n : Int)
deriving DecidableEq, Repr

/-- JS truthiness of a phone cell: null/undefined, the empty string and
the number 0 are falsy. -/
def PhoneVal.truthy : PhoneVal → Bool
  | .null => false
  | .str s => s != ""
  | .num n => n != 0

/-- JS `toString` of a phone cell (only reached on truthy values). -/
def PhoneVal.toStr : PhoneVal → String
  | .null => ""
  | .str s => s
  | .num n => toString n

/-- JS truthiness of an optional string field: null/undefined and the
empty string are falsy. -/
def strTruthy : Option String → Bool
  | none => false
  | some s => s != ""

/-- Helper `nullIfEmpty` of bulkJoinerController.js lines 240-243:
empty strings, null and undefined all become null. -/
def nullIfEmpty : Option String → Option String
  | none => none
  | some s => if s = "" then none else some s

/-- JS `v || d` on an optional string. -/
def jsOrStr (v : Option String) (d : String) : String :=
  if strTruthy v = true then v.getD "" else d

/-- One row of `joiners_data`, restricted to the keys the handler reads.
`altPhones` holds, in order, the values at the case-variant phone keys
Phone_number, PhoneNumber, phoneNumber, "Phone Number", Phone_Number and
PHONE_NUMBER (lines 322-325).  `author_id` is a caller-supplied unique
identifier: it sits in the open row map but the handler never reads
it. -/
structure Row where
  candidate_name : Option String := none
  candidate_personal_mail_id : Option String := none
  phone_number : PhoneVal := .null
  altPhones : List PhoneVal := []
  top_department_name_as_per_darwinbox : Option String := none
  department_name_as_per_darwinbox : Option String := none
  date_of_joining : Option String := none
  joining_status : Option String := none
  role_type : Option String := none
  role_assign : Option String := none
  qualification : Option String := none
  employee_id : Option String := none
  genre : Option String := none
  author_id : Option String := none
deriving DecidableEq, Repr

/-- A date value: the current instant (`new Date()`) or a parsed
caller-supplied date string. -/
inductive DateVal where
  | now
  | ofStr (s : String)
deriving DecidableEq, Repr

/-- The `createdBy` ObjectId: the authenticated user's id, or a freshly
generated ObjectId when the request has no user. -/
inductive OidVal where
  | ofId (s : String)
  | fresh
deriving DecidableEq, Repr

/-- The onboarding checklist of lines 277-283. -/
structure OnboardingChecklist where
  welcomeEmailSent : Bool
  credentialsGenerated : Bool
  accountActivated : Bool
  trainingAssigned : Bool
  documentsSubmitted : Bool
deriving DecidableEq, Repr

/-- JS `s.charAt(0).toUpperCase() + s.slice(1).toLowerCase()` on
ASCII. -/
def capitalizeJs (s : String) : String :=
  match s.data with
  | [] => ""
  | c :: rest => String.mk (c.toUpper :: rest.map Char.toLower)

/-- The mapped record (`mappedData`, lines 246-284) that a valid row
contributes to the insert batch. -/
structure JoinerRec where
  name : String
  email : String
  phone : String
  department : String
  role : String
  joiningDate : DateVal
  candidate_name : Option String
  candidate_personal_mail_id : Option String
  phone_number : Option String
  top_department_name_as_per_darwinbox : Option String
  department_name_as_per_darwinbox : Option String
  date_of_joining : Option DateVal
  joining_status : String
  role_type : Option String
  role_assign : String
  qualification : Option String
  author_id : String
  employeeId : Option String
  genre : Option String
  status : String
  accountCreated : Bool
  accountCreatedAt : Option DateVal
  createdBy : OidVal
  onboardingChecklist : OnboardingChecklist
deriving DecidableEq, Repr

/-- Construction of `mappedData` (lines 246-284) for the row, given the
freshly generated `author_id` g (line 237 generates one per iteration,
before any validation) and the authenticated user id. -/
def mapRow (row : Row) (g : String) (reqUserId : Option String) : JoinerRec :=
  { name := jsOrStr row.candidate_name "Unknown"
    email := jsOrStr row.candidate_personal_mail_id "unknown@example.com"
    phone := if row.phone_number.truthy = true then row.phone_number.toStr else "0000000000"
    department := (nullIfEmpty row.top_department_name_as_per_darwinbox).getD "OTHERS"
    role := "trainee"
    joiningDate :=
      if strTruthy row.date_of_joining = true then .ofStr (row.date_of_joining.getD "")
      else .now
    candidate_name := nullIfEmpty row.candidate_name
    candidate_personal_mail_id := nullIfEmpty row.candidate_personal_mail_id
    phone_number := if row.phone_number.truthy = true then some row.phone_number.toStr else none
    top_department_name_as_per_darwinbox :=
      nullIfEmpty row.top_department_name_as_per_darwinbox
    department_name_as_per_darwinbox := nullIfEmpty row.department_name_as_per_darwinbox
    date_of_joining :=
      if strTruthy row.date_of_joining = true then some (.ofStr (row.date_of_joining.getD ""))
      else none
    joining_status := ((nullIfEmpty row.joining_status).map lowerStr).getD "pending"
    role_type := nullIfEmpty row.role_type
    role_assign := (nullIfEmpty row.role_assign).getD "OTHER"
    qualification := nullIfEmpty row.qualification
    author_id := g
    employeeId := nullIfEmpty row.employee_id
    genre := (nullIfEmpty row.genre).map capitalizeJs
    status := "pending"
    accountCreated := false
    accountCreatedAt := none
    createdBy := match reqUserId with | some i => .ofId i | none => .fresh
    onboardingChecklist :=
      { welcomeEmailSent := false, credentialsGenerated := false, accountActivated := false,
        trainingAssigned := false, documentsSubmitted := false } }

/-- Absence of whitespace, the `[^\s@]` part of the email regex apart
from the at-sign handled by the split. -/
def noWs (l : List Char) : Bool :=
  l.all (fun c => !c.isWhitespace)

/-- The email regex of line 299, `^[^\s@]+@[^\s@]+\.[^\s@]+$`: exactly
one at-sign, a nonempty whitespace-free local part, and a
whitespace-free domain containing a dot with at least one character on
each side. -/
def emailOk (s : String) : Bool :=
  match splitChar '@' s.data with
  | [localPart, domain] =>
      !localPart.isEmpty && noWs localPart && noWs domain &&
      ((domain.drop 1).dropLast.contains '.')
  | _ => false

/-- Step one of the phone resolution (lines 310-317): the exact
phone_number key; a number (including 0) is stringified, a string
counts only when nonempty after trimming and is kept untrimmed. -/
def phoneFromExact : PhoneVal → Option String
  | .null => none
  | .str s => if jsTrim s = "" then none else some s
  | .num n => some (toString n)

/-- Fallback scan over the case-variant phone keys (lines 320-338):
first value that is neither null/undefined nor the empty string. -/
def phoneFromAlts : List PhoneVal → Option String
  | [] => none
  | .null :: rest => phoneFromAlts rest
  | .str s :: rest => if s = "" then phoneFromAlts rest else some s
  | .num n :: _ => some (toString n)

/-- The full phone resolution (lines 307-338): the fallback scan only
runs when step one produced nothing and the exact key held null,
undefined or the empty string. -/
def resolvePhone (row : Row) : Option String :=
  match phoneFromExact row.phone_number with
  | some s => some s
  | none =>
      if row.phone_number = .null ∨ row.phone_number = .str "" then
        phoneFromAlts row.altPhones
      else none

/-- Cleaning of line 371: remove every character other than digits and
plus signs, then remove one leading plus sign. -/
def cleanPhone (phoneStr : String) : String :=
  let kept := phoneStr.data.filter (fun c => c.isDigit || c = '+')
  String.mk (match kept with
    | '+' :: rest => rest
    | l => l)

/-- The phone regex of line 373, `^[\+]?[0-9][\d]{0,15}$`: an optional
leading plus sign followed by one to sixteen digits. -/
def phoneRegexOk (s : String) : Bool :=
  let digitsPart := match s.data with
    | '+' :: rest => rest
    | l => l
  decide (1 ≤ digitsPart.length) && decide (digitsPart.length ≤ 16) &&
    digitsPart.all Char.isDigit

/-- The kinds of per-row error string the validation loop pushes; the
1-based row number each message carries is modelled alongside in the
error list. -/
inductive ErrKind where
  | missingName
  | missingEmail
  | invalidEmail
  | missingPhone
  | invalidPhone
  | invalidRoleAssign
  | duplicate
deriving DecidableEq, Repr

/-- The Joiner collection. -/
structure JoinerStore where
  records : List JoinerRec
deriving DecidableEq, Repr

/-- Duplicate lookup of lines 389-394,
`Joiner.findOne({ $or: [{ candidate_personal_mail_id }, { author_id }] })`:
exact equality on either key against the persisted records. -/
def findExistingJoiner (store : JoinerStore) (mail : Option String) (aid : String) : Bool :=
  store.records.any
    (fun r => decide (r.candidate_personal_mail_id = mail) || decide (r.author_id = aid))

/-- The pure (store-independent) part of the per-row validation, in
source order: required name (line 288), required email (line 293),
email format (line 299), phone resolution and requiredness (lines
307-365), phone format (lines 367-377), role_assign whitelist (line
383).  Returns the error pushed, or none when the row reaches the
duplicate lookup. -/
def pureRowError (row : Row) : Option ErrKind :=
  if strTruthy row.candidate_name = false then some .missingName
  else if strTruthy row.candidate_personal_mail_id = false then some .missingEmail
  else if emailOk (row.candidate_personal_mail_id.getD "") = false then some .invalidEmail
  else
    match resolvePhone row with
    | none => some .missingPhone
    | some p =>
        if jsTrim p = "" then some .missingPhone
        else if phoneRegexOk (jsTrim p) = false ∧ (cleanPhone (jsTrim p)).length < 10 then
          some .invalidPhone
        else if strTruthy row.role_assign = true ∧
            (row.role_assign.getD "") ∉ (["SDM", "SDI", "SDF", "OTHER"] : List String) then
          some .invalidRoleAssign
        else none

/-- One iteration of the validation loop (lines 214-406) for a row with
its freshly generated author id: the structured error pushed for the
row, or the mapped record pushed to processedJoiners; the second
component counts the store lookups the iteration performs (the per-row
duplicate findOne and nothing else). -/
def rowCheck (row : Row) (g : String) (reqUserId : Option String)
    (store : JoinerStore) : (ErrKind ⊕ JoinerRec) × Nat :=
  match pureRowError row with
  | some k => (.inl k, 0)
  | none =>
      let mapped := mapRow row g reqUserId
      if findExistingJoiner store mapped.candidate_personal_mail_id mapped.author_id = true then
        (.inl .duplicate, 1)
      else
        (.inr mapped, 1)

/-- Output of the validation loop. -/
structure ProcOut where
  errors : List (Nat × ErrKind)
  processed : List JoinerRec
  queryCount : Nat
deriving DecidableEq, Repr

/-- Error entry of the row at 0-based index i, as the loop pushes it
with its 1-based row number. -/
def rowErr (gen : Nat → String) (reqUserId : Option String) (store : JoinerStore)
    (p : Nat × Row) : Option (Nat × ErrKind) :=
  match (rowCheck p.2 (gen p.1) reqUserId store).1 with
  | .inl k => some (p.1 + 1, k)
  | .inr _ => none

/-- Record contributed by the row at 0-based index i, when it survives
validation. -/
def rowOk (gen : Nat → String) (reqUserId : Option String) (store : JoinerStore)
    (p : Nat × Row) : Option JoinerRec :=
  match (rowCheck p.2 (gen p.1) reqUserId store).1 with
  | .inl _ => none
  | .inr j => some j

/-- The whole validation loop (lines 211-406).  The collection is only
read during the loop — no insert happens before line 428 — so the loop
is a pass over the indexed rows against the fixed store. -/
def processRows (gen : Nat → String) (reqUserId : Option String)
    (rows : List Row) (store : JoinerStore) : ProcOut :=
  let indexed := List.enumFrom 0 rows
  { errors := indexed.filterMap (rowErr gen reqUserId store)
    processed := indexed.filterMap (rowOk gen reqUserId store)
    queryCount := (indexed.map (fun p => (rowCheck p.2 (gen p.1) reqUserId store).2)).sum }

/-- The handler's response (the 400 for a non-array body is outside
this typed model). -/
inductive BulkResp where
  | validationErrors (errors : List (Nat × ErrKind)) (processedCount totalCount : Nat)
  | dbFailure
  | created (createdCount totalCount : Nat)
deriving DecidableEq, Repr

/-- Mongoose `insertMany` with its default ordered behaviour: documents
are written one at a time and the first failing document aborts the
rest; documents written before the failure stay in the collection.
Returns the inserted records and whether every insert succeeded. -/
def insertManyOrdered (insertFails : JoinerRec → Bool) :
    List JoinerRec → List JoinerRec × Bool
  | [] => ([], true)
  | j :: rest =>
      if insertFails j = true then ([], false)
      else
        let out := insertManyOrdered insertFails rest
        (j :: out.1, out.2)

/-- Handler `bulkUploadJoiners` (lines 194-462): run the validation
loop; if any error was collected, return 400 with the error list, the
processed count and the total count, inserting nothing (lines 408-415);
otherwise schema-validate the first mapped document (lines 423-426) and
insert with ordered insertMany — a throw from either step produces the
single 500 database-failure response (lines 429-443), keeping whatever
documents insertMany had already written. -/
def bulkUploadJoiners (gen : Nat → String) (reqUserId : Option String)
    (validateFails insertFails : JoinerRec → Bool)
    (rows : List Row) (store : JoinerStore) : BulkResp × JoinerStore :=
  let out := processRows gen reqUserId rows store
  if out.errors ≠ [] then
    (.validationErrors out.errors out.processed.length rows.length, store)
  else
    match out.processed with
    | [] => (.created 0 rows.length, store)
    | first :: _ =>
        if validateFails first = true then (.dbFailure, store)
        else
          let ins := insertManyOrdered insertFails out.processed
          if ins.2 = true then
            (.created ins.1.length rows.length, { records := store.records ++ ins.1 })
          else
            (.dbFailure, { records := store.records ++ ins.1 })

/-! ### Structural lemmas about the validation loop -/

/-- Each loop iteration performs exactly one store lookup when the pure
checks pass, and none otherwise. -/
theorem rowCheck_snd (row : Row) (g : String) (u : Option String) (store : JoinerStore) :
    (rowCheck row g u store).2 = if (pureRowError row).isNone then 1 else 0 := by
  unfold rowCheck
  cases h : pureRowError row
  · simp only [h, Option.isNone_none, if_true]
    split <;> rfl
  · rfl

/-- A surviving row contributes exactly its mapped record. -/
theorem rowCheck_inr (row : Row) (g : String) (u : Option String) (store : JoinerStore)
    (j : JoinerRec) (h : (rowCheck row g u store).1 = .inr j) :
    j = mapRow row g u ∧ pureRowError row = none ∧
      findExistingJoiner store (mapRow row g u).candidate_personal_mail_id
        (mapRow row g u).author_id = false := by
  unfold rowCheck at h
  cases hp : pureRowError row with
  | some k => rw [hp] at h; exact absurd h (by simp)
  | none =>
      rw [hp] at h
      by_cases hf : findExistingJoiner store (mapRow row g u).candidate_personal_mail_id
          (mapRow row g u).author_id = true
      · rw [if_pos hf] at h
        exact absurd h (by simp)
      · rw [if_neg hf] at h
        simp only [Sum.inr.injEq] at h
        exact ⟨h.symm, rfl, by simpa using hf⟩

/-- A row whose pure checks pass and whose mapped keys are already in
the store is rejected as a duplicate. -/
theorem rowCheck_dup (row : Row) (g : String) (u : Option String) (store : JoinerStore)
    (hp : pureRowError row = none)
    (hf : findExistingJoiner store (mapRow row g u).candidate_personal_mail_id
      (mapRow row g u).author_id = true) :
    (rowCheck row g u store).1 = .inl .duplicate := by
  unfold rowCheck
  rw [hp]
  simp only [hf, if_true]

/-- Every error entry produced from `enumFrom m` carries a row number of
at least m + 1. -/
theorem errFstLb (gen : Nat → String) (u : Option String) (store : JoinerStore) :
    ∀ (rows : List Row) (m : Nat) (e : Nat × ErrKind),
      e ∈ (List.enumFrom m rows).filterMap (rowErr gen u store) → m + 1 ≤ e.1 := by
  intro rows
  induction rows with
  | nil => intro m e he; simp [List.enumFrom] at he
  | cons r rs ih =>
      intro m e he
      simp only [List.enumFrom, List.filterMap_cons] at he
      cases hE : rowErr gen u store (m, r) with
      | none =>
          rw [hE] at he
          have := ih (m + 1) e he
          omega
      | some val =>
          rw [hE] at he
          rcases List.mem_cons.mp he with hhead | htail
          · unfold rowErr at hE
            cases hrc : (rowCheck r (gen m) u store).1 with
            | inl k => rw [hrc] at hE; simp only [Option.some.injEq] at hE
                       subst hE; subst hhead; exact Nat.le_refl _
            | inr j => rw [hrc] at hE; exact absurd hE (by simp)
          · have := ih (m + 1) e htail
            omega

/-- Counting errors by 1-based row number: the row at index i
contributes exactly one entry when it fails, and none otherwise. -/
theorem errCount (gen : Nat → String) (u : Option String) (store : JoinerStore) :
    ∀ (rows : List Row) (n i : Nat) (h : i < rows.length),
      ((List.enumFrom n rows).filterMap (rowErr gen u store)).countP
          (fun e => decide (e.1 = n + i + 1)) =
        if ((rowCheck (rows.get ⟨i, h⟩) (gen (n + i)) u store).1).isLeft then 1 else 0 := by
  intro rows
  induction rows with
  | nil => intro n i h; exact absurd h (by simp)
  | cons r rs ih =>
      intro n i h
      simp only [List.enumFrom, List.filterMap_cons]
      cases i with
      | zero =>
          have htail : ((List.enumFrom (n + 1) rs).filterMap (rowErr gen u store)).countP
              (fun e => decide (e.1 = n + 1)) = 0 :=
            List.countP_eq_zero.mpr (fun e he => by
              have := errFstLb gen u store rs (n + 1) e he
              simp only [decide_eq_true_eq]
              omega)
          cases hrc : (rowCheck r (gen n) u store).1 with
          | inl k =>
              have hE : rowErr gen u store (n, r) = some (n + 1, k) := by
                unfold rowErr; rw [hrc]
              rw [hE]
              simp [List.countP_cons, htail, hrc]
          | inr j =>
              have hE : rowErr gen u store (n, r) = none := by
                unfold rowErr; rw [hrc]
              rw [hE]
              simp [htail, hrc]
      | succ i' =>
          have hlt : i' < rs.length := by simpa using h
          have hrec := ih (n + 1) i' hlt
          have harith : n + 1 + i' + 1 = n + (i' + 1) + 1 := by omega
          have harith2 : n + 1 + i' = n + (i' + 1) := by omega
          rw [harith, harith2] at hrec
          cases hE : rowErr gen u store (n, r) with
          | none =>
              dsimp only
              simpa using hrec
          | some val =>
              have hval : val.1 = n + 1 := by
                unfold rowErr at hE
                cases hrc : (rowCheck r (gen n) u store).1 with
                | inl k => rw [hrc] at hE; simp only [Option.some.injEq] at hE
                           rw [← hE]
                | inr j => rw [hrc] at hE; exact absurd hE (by simp)
              dsimp only
              simp only [List.countP_cons, hval]
              have hd : (decide ((n : Nat) + 1 = n + (i' + 1) + 1)) = false :=
                decide_eq_false (by omega)
              rw [hd]
              simpa using hrec

/-- When no error was collected, every row survived, so the processed
batch has exactly one record per input row. -/
theorem errorsNil_processedLen (gen : Nat → String) (u : Option String)
    (store : JoinerStore) :
    ∀ (rows : List Row) (n : Nat),
      (List.enumFrom n rows).filterMap (rowErr gen u store) = [] →
      ((List.enumFrom n rows).filterMap (rowOk gen u store)).length = rows.length := by
  intro rows
  induction rows with
  | nil => intro n _; simp [List.enumFrom]
  | cons r rs ih =>
      intro n hnil
      simp only [List.enumFrom, List.filterMap_cons] at hnil ⊢
      cases hrc : (rowCheck r (gen n) u store).1 with
      | inl k =>
          have hE : rowErr gen u store (n, r) = some (n + 1, k) := by
            unfold rowErr; rw [hrc]
          rw [hE] at hnil
          exact absurd hnil (by simp)
      | inr j =>
          have hE : rowErr gen u store (n, r) = none := by
            unfold rowErr; rw [hrc]
          have hO : rowOk gen u store (n, r) = some j := by
            unfold rowOk; rw [hrc]
          rw [hE] at hnil
          rw [hO]
          simpa using ih (n + 1) hnil

/-- The indexed pair of a row is a member of its enumeration. -/
theorem mem_enumFrom_of_get :
    ∀ (rows : List Row) (n j : Nat) (hj : j < rows.length),
      (n + j, rows.get ⟨j, hj⟩) ∈ List.enumFrom n rows := by
  intro rows
  induction rows with
  | nil => intro n j hj; exact absurd hj (by simp)
  | cons r rs ih =>
      intro n j hj
      cases j with
      | zero => simp [List.enumFrom]
      | succ j' =>
          have hlt : j' < rs.length := by simpa using hj
          have := ih (n + 1) j' hlt
          have harith : n + 1 + j' = n + (j' + 1) := by omega
          rw [harith] at this
          simp only [List.enumFrom, List.get]
          exact List.mem_cons_of_mem _ this

/-- When every row of the enumeration is rejected as a duplicate, the
error list holds exactly one duplicate entry per row with its 1-based
number, and nothing is processed. -/
theorem allDup_outcome (gen : Nat → String) (u : Option String) (store : JoinerStore) :
    ∀ (rows : List Row) (n : Nat),
      (∀ (j : Nat) (hj : j < rows.length),
        (rowCheck (rows.get ⟨j, hj⟩) (gen (n + j)) u store).1 = .inl .duplicate) →
      (List.enumFrom n rows).filterMap (rowErr gen u store) =
        (List.enumFrom n rows).map (fun p => (p.1 + 1, ErrKind.duplicate)) ∧
      (List.enumFrom n rows).filterMap (rowOk gen u store) = [] := by
  intro rows
  induction rows with
  | nil => intro n _; simp [List.enumFrom]
  | cons r rs ih =>
      intro n hall
      have hhead : (rowCheck r (gen n) u store).1 = .inl .duplicate := by
        have := hall 0 (by simp)
        simpa using this
      have hE : rowErr gen u store (n, r) = some (n + 1, .duplicate) := by
        unfold rowErr; rw [hhead]
      have hO : rowOk gen u store (n, r) = none := by
        unfold rowOk; rw [hhead]
      have htail := ih (n + 1) (fun j hj => by
        have := hall (j + 1) (by simpa using Nat.succ_lt_succ hj)
        have harith : n + (j + 1) = n + 1 + j := by omega
        rw [harith] at this
        simpa using this)
      simp only [List.enumFrom, List.filterMap_cons, List.map_cons, hE, hO]
      exact ⟨by rw [htail.1], htail.2⟩

/-- Ordered insertMany inserts the longest failure-free front segment
and succeeds exactly when every document is failure-free. -/
theorem insertManyOrdered_spec (insf : JoinerRec → Bool) :
    ∀ l : List JoinerRec,
      insertManyOrdered insf l = (l.takeWhile (fun j => !insf j), l.all (fun j => !insf j)) := by
  intro l
  induction l with
  | nil => rfl
  | cons j rest ih =>
      by_cases hj : insf j = true
      · simp [insertManyOrdered, List.takeWhile_cons, List.all_cons, hj]
      · simp only [Bool.not_eq_true] at hj
        simp [insertManyOrdered, List.takeWhile_cons, List.all_cons, hj, ih]

/-- A list all of whose elements satisfy the guard is its own front
segment. -/
theorem takeWhile_all (p : JoinerRec → Bool) :
    ∀ l : List JoinerRec, l.all p = true → l.takeWhile p = l := by
  intro l
  induction l with
  | nil => intro _; rfl
  | cons j rest ih =>
      intro hall
      simp only [List.all_cons, Bool.and_eq_true] at hall
      simp [List.takeWhile_cons, hall.1, ih hall.2]

/-- A fully committed call pins down the validation outcome and the new
store: no error was collected and the store grew by exactly the mapped
batch. -/
theorem created_store (gen : Nat → String) (u : Option String)
    (vf insf : JoinerRec → Bool) (rows : List Row) (store0 : JoinerStore)
    (c t : Nat) (store1 : JoinerStore)
    (h : bulkUploadJoiners gen u vf insf rows store0 = (.created c t, store1)) :
    (processRows gen u rows store0).errors = [] ∧
    store1.records = store0.records ++ (processRows gen u rows store0).processed := by
  unfold bulkUploadJoiners at h
  by_cases hE : (processRows gen u rows store0).errors = []
  · refine ⟨hE, ?_⟩
    rw [if_neg (by simpa using hE)] at h
    cases hP : (processRows gen u rows store0).processed with
    | nil =>
        rw [hP] at h
        dsimp only at h
        simp only [Prod.mk.injEq] at h
        rw [← h.2]
        simp
    | cons first rest =>
        rw [hP] at h
        dsimp only at h
        by_cases hv : vf first = true
        · rw [if_pos hv] at h
          exact absurd h (by simp)
        · rw [if_neg hv] at h
          simp only [insertManyOrdered_spec insf] at h
          by_cases hall : ((first :: rest).all fun j => !insf j) = true
          · rw [hall] at h
            simp only [if_true, Prod.mk.injEq] at h
            rw [← h.2]
            have hT : (first :: rest).takeWhile (fun j => !insf j) = first :: rest :=
              takeWhile_all _ _ hall
            rw [hT]
          · rw [Bool.not_eq_true] at hall
            rw [hall] at h
            simp only [Bool.false_eq_true, if_false] at h
            exact absurd h (by simp)
  · rw [if_pos (by simpa using hE)] at h
    exact absurd h (by simp)

/-! ### Claims about the bulk joiner upload -/

/-- A well-formed row used in concrete evaluations (the single-row
scenario of §8). -/
def rowA : Row :=
  { candidate_name := some "A", candidate_personal_mail_id := some "a@x.com",
    phone_number := .str "9876543210" }

/-- A second well-formed row with a distinct email. -/
def rowB : Row :=
  { candidate_name := some "B", candidate_personal_mail_id := some "b@x.com",
    phone_number := .str "9876543211" }

/-- A third well-formed row with a distinct email. -/
def rowC : Row :=
  { candidate_name := some "C", candidate_personal_mail_id := some "c@x.com",
    phone_number := .str "9876543212" }

/-- C1 counterexample: a two-row batch whose first row lacks
candidate_name and whose second row is valid is rejected as a whole —
the handler returns the 400 validation response and the store is
unchanged, committing 0 records rather than input minus errors
= 2 - 1 = 1. -/
theorem bulkUpload_no_partial_commit :
    (bulkUploadJoiners (fun _ => "uuid-a") none (fun _ => false) (fun _ => false)
        [{}, rowA] ⟨[]⟩).2.records.length = 0 ∧
    (bulkUploadJoiners (fun _ => "uuid-a") none (fun _ => false) (fun _ => false)
        [{}, rowA] ⟨[]⟩).1 =
      .validationErrors [(1, .missingName)] 1 2 ∧
    (0 : Nat) ≠ 2 - 1 := by
  refine ⟨by decide, by decide, by decide⟩

/-- C1 amended: a failing row does not stop processing of subsequent
rows, and the error list identifies the row at index i by exactly one
entry with its 1-based row number exactly when that row fails; an
error-free batch maps every input row into the processed batch; but a
batch with at least one validation or duplicate error is rejected as a
whole with the 400 response and the store unchanged (zero committed
records), so committed = input - errors holds only when the error count
is zero. -/
theorem bulkUpload_row_errors (gen : Nat → String) (u : Option String)
    (vf insf : JoinerRec → Bool) (rows : List Row) (store : JoinerStore) :
    (∀ (i : Nat) (h : i < rows.length),
      ((processRows gen u rows store).errors).countP (fun e => decide (e.1 = i + 1)) =
        if ((rowCheck (rows.get ⟨i, h⟩) (gen i) u store).1).isLeft then 1 else 0) ∧
    ((processRows gen u rows store).errors ≠ [] →
      bulkUploadJoiners gen u vf insf rows store =
        (.validationErrors (processRows gen u rows store).errors
          (processRows gen u rows store).processed.length rows.length, store)) ∧
    ((processRows gen u rows store).errors = [] →
      (processRows gen u rows store).processed.length = rows.length) := by
  refine ⟨?_, ?_, ?_⟩
  · intro i h
    have h0 := errCount gen u store rows 0 i h
    simp only [Nat.zero_add] at h0
    exact h0
  · intro hne
    unfold bulkUploadJoiners
    dsimp only
    rw [if_pos hne]
  · intro hnil
    exact errorsNil_processedLen gen u store rows 0 hnil

/-- Witness for C1 at a concrete input: a valid one-row batch collects
no error entry for row 1 and processes its single row. -/
theorem bulkUpload_row_errors_witness :
    (processRows (fun _ => "uuid-w") none [rowA] ⟨[]⟩).processed.length = 1 ∧
    (processRows (fun _ => "uuid-w") none [rowA] ⟨[]⟩).errors.countP
      (fun e => decide (e.1 = 0 + 1)) = 0 := by
  constructor
  · exact (bulkUpload_row_errors (fun _ => "uuid-w") none (fun _ => false) (fun _ => false)
      [rowA] ⟨[]⟩).2.2 (by decide)
  · exact ((bulkUpload_row_errors (fun _ => "uuid-w") none (fun _ => false) (fun _ => false)
      [rowA] ⟨[]⟩).1 0 (by decide)).trans (by decide)

/-- The validation pass issues exactly one store lookup per row whose
pure checks pass. -/
theorem querySum (gen : Nat → String) (u : Option String) (store : JoinerStore) :
    ∀ (rows : List Row) (n : Nat),
      ((List.enumFrom n rows).map (fun p => (rowCheck p.2 (gen p.1) u store).2)).sum =
        (rows.filter (fun r => (pureRowError r).isNone)).length := by
  intro rows
  induction rows with
  | nil => intro n; rfl
  | cons r rs ih =>
      intro n
      simp only [List.enumFrom, List.map_cons, List.sum_cons, List.filter_cons]
      rw [rowCheck_snd]
      cases hp : (pureRowError r).isNone with
      | true =>
          simp only [hp, if_true, List.length_cons, ih (n + 1)]
          omega
      | false =>
          simp only [hp, Bool.false_eq_true, if_false, ih (n + 1)]
          omega

/-- C6 amended: duplicate detection is per-row, not batched — the
validation pass performs exactly one findOne lookup (with an exact-match
$or on email and generated author id) for every row that passes the pure
checks, and no other store access; there is no batched $in query, no
in-memory lookup map, and no lower-casing of the emails before
matching. -/
theorem dedup_query_per_row (gen : Nat → String) (u : Option String)
    (rows : List Row) (store : JoinerStore) :
    (processRows gen u rows store).queryCount =
      (rows.filter (fun r => (pureRowError r).isNone)).length :=
  querySum gen u store rows 0

/-- C6 counterexample: a three-row batch of valid rows issues three
store lookups, more than the at-most-two batched lookups the claim
allows. -/
theorem dedup_not_batched :
    (processRows (fun _ => "uuid-q") none [rowA, rowB, rowC] ⟨[]⟩).queryCount = 3 ∧
    ¬ ((processRows (fun _ => "uuid-q") none [rowA, rowB, rowC] ⟨[]⟩).queryCount ≤ 2) := by
  refine ⟨by decide, by decide⟩

/-- Auxiliary: an empty filterMap means the function returns none on
every member. -/
theorem filterMap_nil_forall {α β : Type} (f : α → Option β) :
    ∀ l : List α, l.filterMap f = [] → ∀ a ∈ l, f a = none := by
  intro l
  induction l with
  | nil => intro _ a ha; exact absurd ha (by simp)
  | cons x xs ih =>
      intro hnil a ha
      rw [List.filterMap_cons] at hnil
      cases hx : f x with
      | some b => rw [hx] at hnil; exact absurd hnil (by simp)
      | none =>
          rw [hx] at hnil
          rcases List.mem_cons.mp ha with rfl | hmem
          · exact hx
          · exact ih hnil a hmem

/-- C3: resubmitting a batch that a previous call fully committed
rejects every row as a duplicate — the error list carries exactly one
duplicate entry per row with its 1-based row number — processes no row,
and returns the store unchanged: zero new records are committed. -/
theorem resubmit_all_duplicates (gen1 gen2 : Nat → String) (u1 u2 : Option String)
    (vf1 insf1 vf2 insf2 : JoinerRec → Bool) (rows : List Row)
    (store0 store1 : JoinerStore) (c t : Nat)
    (h : bulkUploadJoiners gen1 u1 vf1 insf1 rows store0 = (.created c t, store1)) :
    (processRows gen2 u2 rows store1).errors =
      (List.enumFrom 0 rows).map (fun p => (p.1 + 1, ErrKind.duplicate)) ∧
    (processRows gen2 u2 rows store1).processed = [] ∧
    (bulkUploadJoiners gen2 u2 vf2 insf2 rows store1).2 = store1 := by
  obtain ⟨hE, hStore⟩ := created_store gen1 u1 vf1 insf1 rows store0 c t store1 h
  have hE' : (List.enumFrom 0 rows).filterMap (rowErr gen1 u1 store0) = [] := hE
  have hall1 : ∀ (j : Nat) (hj : j < rows.length),
      ∃ jr, (rowCheck (rows.get ⟨j, hj⟩) (gen1 (0 + j)) u1 store0).1 = .inr jr := by
    intro j hj
    have hmem : (0 + j, rows.get ⟨j, hj⟩) ∈ List.enumFrom 0 rows :=
      mem_enumFrom_of_get rows 0 j hj
    have hnone : rowErr gen1 u1 store0 (0 + j, rows.get ⟨j, hj⟩) = none :=
      filterMap_nil_forall _ _ hE' _ hmem
    unfold rowErr at hnone
    cases hrc : (rowCheck (rows.get ⟨j, hj⟩) (gen1 (0 + j)) u1 store0).1 with
    | inl k => rw [hrc] at hnone; exact absurd hnone (by simp)
    | inr jr => exact ⟨jr, rfl⟩
  have hall2 : ∀ (j : Nat) (hj : j < rows.length),
      (rowCheck (rows.get ⟨j, hj⟩) (gen2 (0 + j)) u2 store1).1 = .inl .duplicate := by
    intro j hj
    obtain ⟨jr, hjr⟩ := hall1 j hj
    obtain ⟨hmap, hpure, -⟩ := rowCheck_inr _ _ _ _ _ hjr
    have hjmem : jr ∈ (processRows gen1 u1 rows store0).processed := by
      have hmem : (0 + j, rows.get ⟨j, hj⟩) ∈ List.enumFrom 0 rows :=
        mem_enumFrom_of_get rows 0 j hj
      have hok : rowOk gen1 u1 store0 (0 + j, rows.get ⟨j, hj⟩) = some jr := by
        unfold rowOk
        rw [hjr]
      exact List.mem_filterMap.mpr ⟨_, hmem, hok⟩
    have hinstore : jr ∈ store1.records := by
      rw [hStore]
      exact List.mem_append_right _ hjmem
    apply rowCheck_dup _ _ _ _ hpure
    unfold findExistingJoiner
    apply List.any_eq_true.mpr
    refine ⟨jr, hinstore, ?_⟩
    have hmail : jr.candidate_personal_mail_id =
        (mapRow (rows.get ⟨j, hj⟩) (gen2 (0 + j)) u2).candidate_personal_mail_id := by
      rw [hmap]
      rfl
    simp [hmail]
  obtain ⟨hErr2, hOk2⟩ := allDup_outcome gen2 u2 store1 rows 0 hall2
  refine ⟨hErr2, hOk2, ?_⟩
  unfold bulkUploadJoiners
  dsimp only
  cases rows with
  | nil =>
      rw [if_neg (fun hcon => hcon rfl)]
      rfl
  | cons r rs =>
      have hne : (processRows gen2 u2 (r :: rs) store1).errors ≠ [] := by
        have : (processRows gen2 u2 (r :: rs) store1).errors =
            (List.enumFrom 0 (r :: rs)).map (fun p => (p.1 + 1, ErrKind.duplicate)) := hErr2
        rw [this]
        simp [List.enumFrom]
      rw [if_pos hne]

/-- Witness for C3 at a concrete input: after a one-row batch is fully
committed, resubmitting the same batch yields one duplicate error for
row 1, processes nothing and leaves the store as it was. -/
theorem resubmit_all_duplicates_witness :
    (processRows (fun _ => "uuid-2") none [rowA]
        ⟨[mapRow rowA "uuid-1" none]⟩).errors =
      (List.enumFrom 0 [rowA]).map (fun p => (p.1 + 1, ErrKind.duplicate)) ∧
    (processRows (fun _ => "uuid-2") none [rowA]
        ⟨[mapRow rowA "uuid-1" none]⟩).processed = [] ∧
    (bulkUploadJoiners (fun _ => "uuid-2") none (fun _ => false) (fun _ => false)
        [rowA] ⟨[mapRow rowA "uuid-1" none]⟩).2 = ⟨[mapRow rowA "uuid-1" none]⟩ :=
  resubmit_all_duplicates (fun _ => "uuid-1") (fun _ => "uuid-2") none none
    (fun _ => false) (fun _ => false) (fun _ => false) (fun _ => false)
    [rowA] ⟨[]⟩ ⟨[mapRow rowA "uuid-1" none]⟩ 1 1 (by decide)

/-- C7 amended: the final insert is an ordered bulk insert, not an
unordered one — for an error-free batch with a passing schema
pre-validation, the store gains exactly the failure-free front segment
of the processed batch: the first row-level insert failure aborts every
later row; when every document inserts, the handler reports the created
count, and when any fails it returns the single database-failure
response, with no per-row failure list and no committed count. -/
theorem insert_failure_aborts (gen : Nat → String) (u : Option String)
    (vf insf : JoinerRec → Bool) (rows : List Row) (store : JoinerStore)
    (hE : (processRows gen u rows store).errors = [])
    (hv : ∀ j, vf j = false) :
    (bulkUploadJoiners gen u vf insf rows store).2.records =
      store.records ++
        ((processRows gen u rows store).processed.takeWhile (fun j => !insf j)) ∧
    (((processRows gen u rows store).processed.all (fun j => !insf j)) = true →
      (bulkUploadJoiners gen u vf insf rows store).1 =
        .created (processRows gen u rows store).processed.length rows.length) ∧
    (((processRows gen u rows store).processed.all (fun j => !insf j)) = false →
      (bulkUploadJoiners gen u vf insf rows store).1 = .dbFailure) := by
  unfold bulkUploadJoiners
  dsimp only
  rw [if_neg (by simpa using hE)]
  cases hP : (processRows gen u rows store).processed with
  | nil =>
      refine ⟨by simp, fun _ => rfl, fun habs => ?_⟩
      simp at habs
  | cons first rest =>
      refine ⟨?_, ?_, ?_⟩
      · by_cases hall : ((first :: rest).all fun j => !insf j) = true
        · simp [hv, insertManyOrdered_spec insf, hall]
        · rw [Bool.not_eq_true] at hall
          simp [hv, insertManyOrdered_spec insf, hall]
      · intro hall
        simp [hv, insertManyOrdered_spec insf, hall, takeWhile_all _ _ hall]
      · intro hall
        simp [hv, insertManyOrdered_spec insf, hall]

/-- Witness for C7 at a concrete input: with no constraint violation,
a valid one-row batch is fully committed and reported as created. -/
theorem insert_failure_aborts_witness :
    (bulkUploadJoiners (fun _ => "uuid-w7") none (fun _ => false) (fun _ => false)
        [rowA] ⟨[]⟩).1 = BulkResp.created 1 1 :=
  (insert_failure_aborts (fun _ => "uuid-w7") none (fun _ => false) (fun _ => false)
      [rowA] ⟨[]⟩ (by decide) (fun _ => rfl)).2.1 (by decide)

/-- C7 counterexample: in a three-row valid batch whose second document
violates a store constraint, the handler commits only the first
document — the third is aborted by the ordered insert, so the committed
count is 1 rather than the 2 the claim requires — and returns the
single database-failure response carrying no per-row failure list and
no committed count. -/
theorem insert_failure_not_collected :
    (bulkUploadJoiners (fun _ => "uuid-c7") none (fun _ => false)
        (fun j => decide (j.candidate_personal_mail_id = some "b@x.com"))
        [rowA, rowB, rowC] ⟨[]⟩).2.records.length = 1 ∧
    (bulkUploadJoiners (fun _ => "uuid-c7") none (fun _ => false)
        (fun j => decide (j.candidate_personal_mail_id = some "b@x.com"))
        [rowA, rowB, rowC] ⟨[]⟩).1 = BulkResp.dbFailure ∧
    (1 : Nat) ≠ 2 := by
  refine ⟨by decide, by decide, by decide⟩

/-! ### Unique identifiers (C8) -/

/-- A hexadecimal digit. -/
def isHexDigit (c : Char) : Bool :=
  c.isDigit || (decide ('a' ≤ c) && decide (c ≤ 'f')) || (decide ('A' ≤ c) && decide (c ≤ 'F'))

/-- Modelled from the spec: the UUID v4 shape (8-4-4-4-12 hexadecimal
groups, version nibble 4, variant nibble 8, 9, a or b) that §4.1 says a
caller-supplied identifier is validated against.  The handler under
src/ contains no such validation; `generateUUID` (bulkJoinerController.js
lines 7-10) delegates to `crypto.randomUUID`, whose output has exactly
this shape. -/
def isUUIDv4 (s : String) : Bool :=
  match splitChar '-' s.data with
  | [g1, g2, g3, g4, g5] =>
      decide (g1.length = 8) && decide (g2.length = 4) && decide (g3.length = 4) &&
      decide (g4.length = 4) && decide (g5.length = 12) &&
      g1.all isHexDigit && g2.all isHexDigit && g3.all isHexDigit &&
      g4.all isHexDigit && g5.all isHexDigit &&
      (match g3 with | '4' :: _ => true | _ => false) &&
      (match g4 with
        | v :: _ => decide (v ∈ (['8', '9', 'a', 'b', 'A', 'B'] : List Char))
        | _ => false)
  | _ => false

/-- C8 amended: the handler never reads a caller-supplied identifier —
every mapped record's author id is the freshly generated one, so every
committed row carries a generator-produced identifier (a valid UUID v4
whenever the generator produces the crypto.randomUUID shape); in the
single-row scenario the one created record carries the fresh identifier
and the phone normalized to 9876543210. -/
theorem author_id_always_generated :
    (∀ (row : Row) (g : String) (u : Option String), (mapRow row g u).author_id = g) ∧
    (∀ (gen : Nat → String) (u : Option String) (rows : List Row) (store : JoinerStore)
        (j : JoinerRec), j ∈ (processRows gen u rows store).processed →
        (∀ i, isUUIDv4 (gen i) = true) → isUUIDv4 j.author_id = true) ∧
    ((processRows (fun _ => "22222222-2222-4222-8222-222222222222") none [rowA]
        ⟨[]⟩).processed.map (fun j => (j.author_id, j.phone_number)) =
      [("22222222-2222-4222-8222-222222222222", some "9876543210")]) ∧
    (processRows (fun _ => "22222222-2222-4222-8222-222222222222") none [rowA]
        ⟨[]⟩).errors = [] := by
  refine ⟨fun _ _ _ => rfl, ?_, by decide, by decide⟩
  intro gen u rows store j hmem hgen
  have hmem' : j ∈ (List.enumFrom 0 rows).filterMap (rowOk gen u store) := hmem
  obtain ⟨p, hp, hok⟩ := List.mem_filterMap.mp hmem'
  unfold rowOk at hok
  cases hrc : (rowCheck p.2 (gen p.1) u store).1 with
  | inl k => rw [hrc] at hok; exact absurd hok (by simp)
  | inr jr =>
      rw [hrc] at hok
      simp only [Option.some.injEq] at hok
      obtain ⟨hmap, -, -⟩ := rowCheck_inr _ _ _ _ _ hrc
      rw [← hok, hmap]
      exact hgen p.1

/-- Witness for C8 at a concrete input: the record mapped from the
scenario row under a v4-shaped generator carries a v4-shaped author
id. -/
theorem author_id_always_generated_witness :
    isUUIDv4 (mapRow rowA "22222222-2222-4222-8222-222222222222" none).author_id = true := by
  have huuid : isUUIDv4 "22222222-2222-4222-8222-222222222222" = true := by decide
  exact (author_id_always_generated).2.1 (fun _ => "22222222-2222-4222-8222-222222222222") none
    [rowA] ⟨[]⟩ (mapRow rowA "22222222-2222-4222-8222-222222222222" none)
    (by decide) (fun _ => huuid)

/-- C8 counterexample: a caller-supplied identifier that is a valid
UUID v4 is still discarded — the committed record carries the freshly
generated identifier instead, and no warning of any kind is recorded
(the error list stays empty), contradicting the claimed
validate-then-keep behaviour. -/
theorem supplied_uuid_discarded :
    isUUIDv4 "11111111-1111-4111-8111-111111111111" = true ∧
    (processRows (fun _ => "22222222-2222-4222-8222-222222222222") none
        [{ rowA with author_id := some "11111111-1111-4111-8111-111111111111" }]
        ⟨[]⟩).processed.map (fun j => j.author_id) =
      ["22222222-2222-4222-8222-222222222222"] ∧
    (processRows (fun _ => "22222222-2222-4222-8222-222222222222") none
        [{ rowA with author_id := some "11111111-1111-4111-8111-111111111111" }]
        ⟨[]⟩).errors = [] ∧
    ("22222222-2222-4222-8222-222222222222" : String) ≠
      "11111111-1111-4111-8111-111111111111" := by
  refine ⟨by decide, by decide, by decide, by decide⟩

/-! ## Day-plan workflow (src/controllers/traineeDayPlanController.js)

The three guarded transitions of C4: `submitEodUpdate` (lines 580-696),
`reviewTraineeDayPlan` (lines 448-524) and `reviewEodUpdate` (lines
701-779).  Dates and instants are modelled as natural numbers. -/

inductive PlanStatus where
  | draft
  | in_progress
  | approved
  | completed
  | rejected
  | pending
deriving DecidableEq, Repr

inductive EodStatus where
  | submitted
  | approved
  | rejected
deriving DecidableEq, Repr

/-- The nested EOD sub-record of the TraineeDayPlan schema. -/
structure EodUpdate where
  submittedAt : Option Nat
  overallRemarks : String
  status : Option EodStatus
  reviewedAt : Option Nat
  reviewedBy : Option String
  reviewComments : String
deriving DecidableEq, Repr

/-- One task of a day plan. -/
structure PlanTask where
  title : String
  timeAllocation : String
  description : String
  status : Option String
  remarks : String
  updatedAt : Option Nat
deriving DecidableEq, Repr

/-- One dynamic checkbox. -/
structure CheckboxItem where
  id : String
  checked : Bool
  updatedAt : Option Nat
deriving DecidableEq, Repr

/-- A trainee day plan, restricted to the fields the three handlers
read or write.  `assignedTrainer` is the populated
trainee.assignedTrainer relation; `checkboxes` models the Mixed
checkbox map in its array-of-groups form keyed by task id (the object
form of the source is updated analogously). -/
structure DayPlan where
  trainee : String
  assignedTrainer : Option String
  status : PlanStatus
  tasks : List PlanTask
  checkboxes : List (String × List CheckboxItem)
  eodUpdate : EodUpdate
  reviewedBy : Option String
  reviewedAt : Option Nat
  reviewComments : String
  approvedBy : Option String
  approvedAt : Option Nat
deriving DecidableEq, Repr

/-- The handler's outcome: success, or one of the rejection responses
(403 access denied, 400 invalid status value, 400 wrong pre-state). -/
inductive PlanResp where
  | ok
  | errAccessDenied
  | errInvalidStatus
  | errWrongState
deriving DecidableEq, Repr

/-- Result of a handler call: the response and the stored plan after
the call. -/
structure PlanOut where
  resp : PlanResp
  plan : DayPlan
deriving DecidableEq, Repr

/-- One EOD task update `{ taskIndex, status, remarks }`. -/
structure TaskUpdate where
  taskIndex : Nat
  status : Option String
  remarks : Option String
deriving DecidableEq, Repr

/-- One EOD checkbox update `{ taskId, checkboxId, checked }`. -/
structure CheckboxUpdate where
  taskId : String
  checkboxId : String
  checked : Bool
deriving DecidableEq, Repr

/-- Task mutation of submitEodUpdate lines 605-612: update status,
remarks and updatedAt of the task at taskIndex when it exists. -/
def applyTaskUpdate (tasks : List PlanTask) (tu : TaskUpdate) (now : Nat) : List PlanTask :=
  if h : tu.taskIndex < tasks.length then
    tasks.set tu.taskIndex
      { tasks.get ⟨tu.taskIndex, h⟩ with
        status := tu.status
        remarks := tu.remarks.getD ""
        updatedAt := some now }
  else
    tasks

/-- Checkbox mutation inner step of lines 632-637: set checked and
updatedAt on the first box with the given id. -/
def updateFirstBox (cid : String) (checked : Bool) (now : Nat) :
    List CheckboxItem → List CheckboxItem
  | [] => []
  | c :: rest =>
      if c.id = cid then { c with checked := checked, updatedAt := some now } :: rest
      else c :: updateFirstBox cid checked now rest

/-- Checkbox mutation of submitEodUpdate lines 615-650: skip updates
with a missing key, look the task group up by id, and toggle the first
matching box. -/
def applyCheckboxUpdate (boxes : List (String × List CheckboxItem))
    (cu : CheckboxUpdate) (now : Nat) : List (String × List CheckboxItem) :=
  if cu.taskId = "" ∨ cu.checkboxId = "" then boxes
  else
    boxes.map (fun grp =>
      if grp.1 = cu.taskId then (grp.1, updateFirstBox cu.checkboxId cu.checked now grp.2)
      else grp)

/-- Handler `submitEodUpdate` (lines 580-696), given the plan found for
(trainee, date): the only guard before mutation is that the plan status
is exactly approved (line 598); on success the task and checkbox
updates are applied, the EOD sub-record is replaced by a fresh
submitted one, and the plan status becomes pending (lines 605-661). -/
def submitEodUpdate (plan : DayPlan) (taskUpdates : List TaskUpdate)
    (overallRemarks : Option String) (checkboxUpdates : List CheckboxUpdate)
    (now : Nat) : PlanOut :=
  if plan.status ≠ .approved then ⟨.errWrongState, plan⟩
  else
    ⟨.ok,
      { plan with
        tasks := taskUpdates.foldl (fun ts tu => applyTaskUpdate ts tu now) plan.tasks
        checkboxes :=
          checkboxUpdates.foldl (fun bs cu => applyCheckboxUpdate bs cu now) plan.checkboxes
        eodUpdate :=
          { submittedAt := some now
            overallRemarks := overallRemarks.getD ""
            status := some .submitted
            reviewedAt := none
            reviewedBy := none
            reviewComments := "" }
        status := .pending }⟩

/-- Handler `reviewTraineeDayPlan` (lines 448-524), guards in source
order: the caller must be the assigned trainer (line 460), the status
value must be approved or rejected (line 464), and the plan must be
exactly in_progress (line 470); every error path returns before any
mutation. -/
def reviewTraineeDayPlan (plan : DayPlan) (trainerId : String) (status : String)
    (reviewComments : Option String) (now : Nat) : PlanOut :=
  if plan.assignedTrainer ≠ some trainerId then ⟨.errAccessDenied, plan⟩
  else if status ∉ (["approved", "rejected"] : List String) then ⟨.errInvalidStatus, plan⟩
  else if plan.status ≠ .in_progress then ⟨.errWrongState, plan⟩
  else
    let plan1 : DayPlan :=
      { plan with
        status := if status = "approved" then PlanStatus.approved else .rejected
        reviewedBy := some trainerId
        reviewedAt := some now
        reviewComments := reviewComments.getD "" }
    if status = "approved" then
      ⟨.ok, { plan1 with approvedBy := some trainerId, approvedAt := some now }⟩
    else
      ⟨.ok, plan1⟩

/-- Handler `reviewEodUpdate` (lines 701-779), guards in source order:
the caller must be the assigned trainer (line 713), the plan must be
exactly pending (line 718), and the status value must be approved or
rejected (line 725); on success the EOD review fields are set and the
plan moves to completed on approval, rejected otherwise. -/
def reviewEodUpdate (plan : DayPlan) (trainerId : String) (status : String)
    (reviewComments : Option String) (now : Nat) : PlanOut :=
  if plan.assignedTrainer ≠ some trainerId then ⟨.errAccessDenied, plan⟩
  else if plan.status ≠ .pending then ⟨.errWrongState, plan⟩
  else if status ∉ (["approved", "rejected"] : List String) then ⟨.errInvalidStatus, plan⟩
  else
    ⟨.ok,
      { plan with
        eodUpdate :=
          { plan.eodUpdate with
            reviewedAt := some now
            reviewedBy := some trainerId
            reviewComments := reviewComments.getD ""
            status := some (if status = "approved" then EodStatus.approved else .rejected) }
        status := if status = "approved" then PlanStatus.completed else .rejected }⟩

/-- C4: an EOD submission succeeds only from status approved, the
initial trainer review only from in_progress, and the EOD review only
from pending; every rejected call returns the plan unchanged; in
particular a plan in status approved cannot be moved to completed
directly — the EOD review rejects it without mutation — and the review
status value completed is itself rejected. -/
theorem dayplan_guards (plan : DayPlan) (trainerId : String) (status : String)
    (reviewComments : Option String) (taskUpdates : List TaskUpdate)
    (overallRemarks : Option String) (checkboxUpdates : List CheckboxUpdate) (now : Nat) :
    ((submitEodUpdate plan taskUpdates overallRemarks checkboxUpdates now).resp = .ok →
      plan.status = .approved) ∧
    ((submitEodUpdate plan taskUpdates overallRemarks checkboxUpdates now).resp ≠ .ok →
      (submitEodUpdate plan taskUpdates overallRemarks checkboxUpdates now).plan = plan) ∧
    ((reviewTraineeDayPlan plan trainerId status reviewComments now).resp = .ok →
      plan.status = .in_progress) ∧
    ((reviewTraineeDayPlan plan trainerId status reviewComments now).resp ≠ .ok →
      (reviewTraineeDayPlan plan trainerId status reviewComments now).plan = plan) ∧
    ((reviewEodUpdate plan trainerId status reviewComments now).resp = .ok →
      plan.status = .pending) ∧
    ((reviewEodUpdate plan trainerId status reviewComments now).resp ≠ .ok →
      (reviewEodUpdate plan trainerId status reviewComments now).plan = plan) ∧
    (plan.status = .approved →
      (reviewEodUpdate plan trainerId status reviewComments now).resp ≠ .ok ∧
      (reviewEodUpdate plan trainerId status reviewComments now).plan = plan) ∧
    (reviewTraineeDayPlan plan trainerId "completed" reviewComments now).resp ≠ .ok := by
  refine ⟨?_, ?_, ?_, ?_, ?_, ?_, ?_, ?_⟩
  · intro hok
    unfold submitEodUpdate at hok
    by_cases hs : plan.status = PlanStatus.approved
    · exact hs
    · rw [if_pos hs] at hok
      exact absurd hok (by simp)
  · intro hne
    unfold submitEodUpdate at hne ⊢
    by_cases hs : plan.status = PlanStatus.approved
    · rw [if_neg (by simpa using hs)] at hne
      exact absurd rfl hne
    · rw [if_pos hs]
  · intro hok
    unfold reviewTraineeDayPlan at hok
    by_cases ha : plan.assignedTrainer = some trainerId
    · rw [if_neg (by simpa using ha)] at hok
      by_cases hv : status ∈ (["approved", "rejected"] : List String)
      · rw [if_neg (fun hcon => hcon hv)] at hok
        by_cases hs : plan.status = PlanStatus.in_progress
        · exact hs
        · rw [if_pos hs] at hok
          exact absurd hok (by simp)
      · rw [if_pos hv] at hok
        exact absurd hok (by simp)
    · rw [if_pos ha] at hok
      exact absurd hok (by simp)
  · intro hne
    unfold reviewTraineeDayPlan at hne ⊢
    by_cases ha : plan.assignedTrainer = some trainerId
    · rw [if_neg (by simpa using ha)] at hne ⊢
      by_cases hv : status ∈ (["approved", "rejected"] : List String)
      · rw [if_neg (fun hcon => hcon hv)] at hne ⊢
        by_cases hs : plan.status = PlanStatus.in_progress
        · rw [if_neg (by simpa using hs)] at hne
          by_cases hap : status = "approved"
          · rw [if_pos hap] at hne
            exact absurd rfl hne
          · rw [if_neg hap] at hne
            exact absurd rfl hne
        · rw [if_pos hs]
      · rw [if_pos hv]
    · rw [if_pos ha]
  · intro hok
    unfold reviewEodUpdate at hok
    by_cases ha : plan.assignedTrainer = some trainerId
    · rw [if_neg (by simpa using ha)] at hok
      by_cases hs : plan.status = PlanStatus.pending
      · exact hs
      · rw [if_pos hs] at hok
        exact absurd hok (by simp)
    · rw [if_pos ha] at hok
      exact absurd hok (by simp)
  · intro hne
    unfold reviewEodUpdate at hne ⊢
    by_cases ha : plan.assignedTrainer = some trainerId
    · rw [if_neg (by simpa using ha)] at hne ⊢
      by_cases hs : plan.status = PlanStatus.pending
      · rw [if_neg (by simpa using hs)] at hne ⊢
        by_cases hv : status ∈ (["approved", "rejected"] : List String)
        · rw [if_neg (fun hcon => hcon hv)] at hne
          exact absurd rfl hne
        · rw [if_pos hv]
      · rw [if_pos hs]
    · rw [if_pos ha]
  · intro happr
    have hsne : plan.status ≠ PlanStatus.pending := by
      rw [happr]
      intro hcon
      exact absurd hcon (by simp)
    constructor
    · intro hok
      unfold reviewEodUpdate at hok
      by_cases ha : plan.assignedTrainer = some trainerId
      · rw [if_neg (by simpa using ha), if_pos hsne] at hok
        exact absurd hok (by simp)
      · rw [if_pos ha] at hok
        exact absurd hok (by simp)
    · unfold reviewEodUpdate
      by_cases ha : plan.assignedTrainer = some trainerId
      · rw [if_neg (by simpa using ha), if_pos hsne]
      · rw [if_pos ha]
  · intro hok
    unfold reviewTraineeDayPlan at hok
    by_cases ha : plan.assignedTrainer = some trainerId
    · rw [if_neg (by simpa using ha)] at hok
      rw [if_pos (by decide : ("completed" : String) ∉
        (["approved", "rejected"] : List String))] at hok
      exact absurd hok (by simp)
    · rw [if_pos ha] at hok
      exact absurd hok (by simp)

/-- A concrete approved plan for the C4 witness. -/
def planApproved : DayPlan :=
  { trainee := "trainee-1"
    assignedTrainer := some "trainer-1"
    status := .approved
    tasks := []
    checkboxes := []
    eodUpdate :=
      { submittedAt := none, overallRemarks := "", status := none, reviewedAt := none,
        reviewedBy := none, reviewComments := "" }
    reviewedBy := none
    reviewedAt := none
    reviewComments := ""
    approvedBy := some "trainer-1"
    approvedAt := some 1 }

/-- Witness for C4 at concrete inputs: an approved plan accepts the EOD
submission (so its pre-state really was approved), and the EOD review
of that same approved plan is rejected with the plan unchanged. -/
theorem dayplan_guards_witness :
    planApproved.status = PlanStatus.approved ∧
    ((reviewEodUpdate planApproved "trainer-1" "approved" none 2).resp ≠ .ok ∧
      (reviewEodUpdate planApproved "trainer-1" "approved" none 2).plan = planApproved) := by
  constructor
  · exact (dayplan_guards planApproved "trainer-1" "approved" none [] none [] 2).1 (by decide)
  · exact (dayplan_guards planApproved "trainer-1" "approved" none [] none [] 2).2.2.2.2.2.2.1
      (by decide)

end TaskMgr
